import Mathlib

/-!
Shallow embedding of src/ugci_driver.c (a usb-skeleton style bulk driver).

Machine concurrency is sequentialized: each entry point, completion callback
and lifecycle callback is one atomic step on the device state.  External
fallible calls (usb_submit_urb, copy_to_user, copy_from_user, allocations) and the events
that end blocking waits are passed in as explicit oracle arguments, so every
definition is executable.  Error codes are Linux errno values as negative Ints.
-/

namespace Ugci

/-- PAGE_SIZE - 512, src/ugci_driver.c line 39. -/
def MAX_TRANSFER : Nat := 4096 - 512

/-- src/ugci_driver.c line 43. -/
def WRITES_IN_FLIGHT : Nat := 8

def ENOENT : Int := 2
def EINTR : Int := 4
def EIO_err : Int := 5
def EAGAIN : Int := 11
def ENOMEM : Int := 12
def EFAULT : Int := 14
def ENODEV : Int := 19
def EPIPE : Int := 32
def ECONNRESET : Int := 104
def ESHUTDOWN : Int := 108
def ERESTARTSYS : Int := 512

/-- The device state, embedding `struct usb_ugci` (src/ugci_driver.c lines 47-66)
plus the transport-side bookkeeping the C state leaves implicit:
`registered` models the usb_register_dev / usb_deregister_dev pairing,
`inflight_in` counts inbound urbs outstanding at the transport (the C code has
one urb object; we count so that single-outstanding is a theorem, not a type
constraint), `inflight_in_len` is the transfer length of the outstanding
inbound urb, and `submitted` holds the payloads of the anchored outbound urbs
(`struct usb_anchor submitted`).  Locks and the wait queue disappear in the
sequential model; `limit_sem` is the counting value of the write semaphore. -/
structure UsbUgci where
  registered : Bool
  interface_present : Bool
  has_bulk_in_urb : Bool
  bulk_in_buffer : List Nat
  bulk_in_size : Nat
  bulk_in_filled : Nat
  bulk_in_copied : Nat
  errors : Int
  ongoing_read : Bool
  inflight_in : Nat
  inflight_in_len : Nat
  limit_sem : Nat
  submitted : List (List Nat)
  kref : Nat
  deriving Repr, DecidableEq

/-- Embeds `ugci_read_bulk_callback` (src/ugci_driver.c lines 164-192).
`incoming` is the data the transport DMA wrote to the start of
`bulk_in_buffer`; `urb->actual_length` is `incoming.length`.  Any nonzero
status is recorded into `errors` (the cancellation-class statuses only skip
the dev_err log); a zero status publishes `bulk_in_filled`.  `ongoing_read`
falls to false unconditionally and the completed urb leaves the transport. -/
def ugci_read_bulk_callback (s : UsbUgci) (status : Int) (incoming : List Nat) : UsbUgci :=
  if status ≠ 0 then
    { s with errors := status, ongoing_read := false, inflight_in := s.inflight_in - 1 }
  else
    { s with bulk_in_buffer := incoming ++ s.bulk_in_buffer.drop incoming.length,
             bulk_in_filled := incoming.length,
             ongoing_read := false,
             inflight_in := s.inflight_in - 1 }

/-- Embeds `ugci_write_bulk_callback` (src/ugci_driver.c lines 349-375):
any nonzero status is recorded into `errors`; unconditionally the staging
buffer is freed (the payload leaves `submitted`, index `i` names which
outstanding urb completed) and one permit returns to the semaphore. -/
def ugci_write_bulk_callback (s : UsbUgci) (status : Int) (i : Nat) : UsbUgci :=
  let s1 := if status ≠ 0 then { s with errors := status } else s
  { s1 with submitted := s1.submitted.eraseIdx i, limit_sem := s1.limit_sem + 1 }

/-- Embeds `ugci_do_read_io` (src/ugci_driver.c lines 194-230): fill the urb
for `min bulk_in_size count` bytes, set `ongoing_read`, zero
`bulk_in_filled`/`bulk_in_copied`, submit.  `submit_rv` is the oracle result
of `usb_submit_urb`; on a negative result the error maps to -ENOMEM or -EIO
and `ongoing_read` is reset to false. -/
def ugci_do_read (s : UsbUgci) (count : Nat) (submit_rv : Int) : UsbUgci × Int :=
  let len := min s.bulk_in_size count
  let s1 := { s with ongoing_read := true, bulk_in_filled := 0, bulk_in_copied := 0,
                     inflight_in_len := len }
  if submit_rv < 0 then
    ({ s1 with ongoing_read := false }, if submit_rv = -ENOMEM then submit_rv else -EIO_err)
  else
    ({ s1 with inflight_in := s1.inflight_in + 1 }, submit_rv)

/-- Result of one trip of the `retry:` loop of `ugci_read`: a return from the
call, a `goto retry` with the remaining oracle lists, or oracle exhaustion. -/
inductive IterOut where
  | done : UsbUgci → Int → List Nat → IterOut
  | again : UsbUgci → List (Option (Int × List Nat)) → List Int → IterOut
  | stuck : IterOut
  deriving Repr

/-- Embeds `ugci_read` from the error check to the end of the loop body
(src/ugci_driver.c lines 279-343).  `waits` feeds later waits, `submits`
feeds the `usb_submit_urb` outcomes in order, `cok` is whether
`copy_to_user` succeeds.  Returned `done` data is the byte list delivered
to the caller. -/
def ugci_read_tail (s : UsbUgci) (count : Nat)
    (waits : List (Option (Int × List Nat))) (submits : List Int) (cok : Bool) : IterOut :=
  if s.errors < 0 then
    IterOut.done { s with errors := 0 }
      (if s.errors = -EPIPE then s.errors else -EIO_err) []
  else if s.bulk_in_filled ≠ 0 then
    if s.bulk_in_filled - s.bulk_in_copied = 0 then
      match submits with
      | [] => IterOut.stuck
      | srv :: submits2 =>
        let r := ugci_do_read s count srv
        if r.2 < 0 then IterOut.done r.1 r.2 []
        else IterOut.again r.1 waits submits2
    else
      let available := s.bulk_in_filled - s.bulk_in_copied
      let chunk := min available count
      let d := (s.bulk_in_buffer.drop s.bulk_in_copied).take chunk
      let s1 := { s with bulk_in_copied := s.bulk_in_copied + chunk }
      let rv : Int := if cok then (chunk : Int) else -EFAULT
      let dd : List Nat := if cok then d else []
      if available < count then
        match submits with
        | [] => IterOut.stuck
        | srv :: _ => IterOut.done (ugci_do_read s1 (count - chunk) srv).1 rv dd
      else IterOut.done s1 rv dd
  else
    match submits with
    | [] => IterOut.stuck
    | srv :: submits2 =>
      let r := ugci_do_read s count srv
      if r.2 < 0 then IterOut.done r.1 r.2 []
      else IterOut.again r.1 waits submits2

/-- Embeds the `retry:` label of `ugci_read` (src/ugci_driver.c lines 257-277):
snapshot `ongoing_read`; if set, a nonblocking call fails with -EAGAIN and a
blocking call waits interruptibly — the wait either is interrupted
(`Option.none`, -ERESTARTSYS) or ends because the inbound completion ran
(`Option.some (status, incoming)` applies `ugci_read_bulk_callback`). -/
def ugci_read_retry (s : UsbUgci) (count : Nat) (nonblock : Bool)
    (waits : List (Option (Int × List Nat))) (submits : List Int) (cok : Bool) : IterOut :=
  if s.ongoing_read then
    if nonblock then IterOut.done s (-EAGAIN) []
    else
      match waits with
      | [] => IterOut.stuck
      | Option.none :: _ => IterOut.done s (-ERESTARTSYS) []
      | Option.some (st, inc) :: waits2 =>
        ugci_read_tail (ugci_read_bulk_callback s st inc) count waits2 submits cok
  else ugci_read_tail s count waits submits cok

/-- The `retry:` loop of `ugci_read`, fueled; `none` means the oracle lists
or the fuel ran out before the call returned. -/
def ugci_read_go : Nat → UsbUgci → Nat → Bool →
    List (Option (Int × List Nat)) → List Int → Bool → Option (UsbUgci × Int × List Nat)
  | 0, _, _, _, _, _, _ => none
  | Nat.succ fuel, s, count, nonblock, waits, submits, cok =>
    match ugci_read_retry s count nonblock waits submits cok with
    | IterOut.done s1 rv d => some (s1, rv, d)
    | IterOut.again s1 waits2 submits2 => ugci_read_go fuel s1 count nonblock waits2 submits2 cok
    | IterOut.stuck => none

/-- Embeds `ugci_read` (src/ugci_driver.c lines 232-347): EOF for no urb or
zero count, interruptible mutex acquisition (`mutex_intr`), disconnect check,
then the retry loop. -/
def ugci_read (s : UsbUgci) (count : Nat) (nonblock : Bool) (mutex_intr : Bool)
    (fuel : Nat) (waits : List (Option (Int × List Nat))) (submits : List Int)
    (cok : Bool) : Option (UsbUgci × Int × List Nat) :=
  if s.has_bulk_in_urb = false ∨ count = 0 then some (s, 0, [])
  else if mutex_intr then some (s, -EINTR, [])
  else if s.interface_present = false then some (s, -ENODEV, [])
  else ugci_read_go fuel s count nonblock waits submits cok

/-- Oracle for one `ugci_write` call: blocking mode flag (`O_NONBLOCK`),
whether a blocking semaphore wait is cut short by a signal, the outcomes of
`usb_alloc_urb`, `usb_alloc_coherent`, `copy_from_user`, `usb_submit_urb`. -/
structure WriteOracle where
  nonblock : Bool
  sem_interrupted : Bool
  urb_alloc_ok : Bool
  buf_alloc_ok : Bool
  copy_ok : Bool
  submit_rv : Int
  deriving Repr, DecidableEq

/-- Embeds `ugci_write` after the semaphore was taken (src/ugci_driver.c
lines 413-494): error check and clear, urb and buffer allocation, copy from
user, disconnect check, anchor, submit.  Every failing path unwinds through
the `error:` label, which releases the buffer and urb and ups the
semaphore; success returns `writesize` with the payload anchored. -/
def ugci_write_admitted (s : UsbUgci) (data : List Nat) (writesize : Nat)
    (o : WriteOracle) : UsbUgci × Int :=
  if s.errors < 0 then
    ({ s with errors := 0, limit_sem := s.limit_sem + 1 },
     if s.errors = -EPIPE then s.errors else -EIO_err)
  else if o.urb_alloc_ok = false then ({ s with limit_sem := s.limit_sem + 1 }, -ENOMEM)
  else if o.buf_alloc_ok = false then ({ s with limit_sem := s.limit_sem + 1 }, -ENOMEM)
  else if o.copy_ok = false then ({ s with limit_sem := s.limit_sem + 1 }, -EFAULT)
  else if s.interface_present = false then ({ s with limit_sem := s.limit_sem + 1 }, -ENODEV)
  else if o.submit_rv ≠ 0 then ({ s with limit_sem := s.limit_sem + 1 }, o.submit_rv)
  else ({ s with submitted := s.submitted ++ [data.take writesize] }, (writesize : Int))

/-- Embeds `ugci_write` (src/ugci_driver.c lines 377-495).  `data` is the
user buffer contents (`count` names the requested length, as in C).  `none`
means a blocking call is still parked on the semaphore — not a completed
call.  A semaphore with free permits is taken immediately in either mode. -/
def ugci_write (s : UsbUgci) (data : List Nat) (count : Nat) (o : WriteOracle) :
    Option (UsbUgci × Int) :=
  let writesize := min count MAX_TRANSFER
  if count = 0 then some (s, 0)
  else if o.nonblock = false then
    if s.limit_sem ≠ 0 then
      some (ugci_write_admitted { s with limit_sem := s.limit_sem - 1 } data writesize o)
    else if o.sem_interrupted then some (s, -ERESTARTSYS)
    else none
  else
    if s.limit_sem ≠ 0 then
      some (ugci_write_admitted { s with limit_sem := s.limit_sem - 1 } data writesize o)
    else some (s, -EAGAIN)

/-- Kill the first `n` anchored outbound urbs: `usb_kill_urb` completes each
with status -ENOENT, so each kill runs `ugci_write_bulk_callback`. -/
def ugci_kill_n : Nat → UsbUgci → UsbUgci
  | 0, s => s
  | Nat.succ n, s => ugci_kill_n n (ugci_write_bulk_callback s (-ENOENT) 0)

/-- Embeds `usb_kill_anchored_urbs(&dev->submitted)`. -/
def ugci_kill_anchored_urbs (s : UsbUgci) : UsbUgci :=
  ugci_kill_n s.submitted.length s

/-- Embeds `usb_kill_urb(dev->bulk_in_urb)`: if the inbound urb is in flight
it completes with -ENOENT (no data), otherwise nothing happens. -/
def ugci_kill_bulk_in_urb (s : UsbUgci) : UsbUgci :=
  if 0 < s.inflight_in then ugci_read_bulk_callback s (-ENOENT) [] else s

/-- Embeds `ugci_draw_down` (src/ugci_driver.c lines 618-626).  The model
takes the forced path: the anchored urbs still outstanding at the timeout
are killed, then the inbound urb is killed; completions that happen
naturally during the wait are separate prior steps of the system. -/
def ugci_draw_down (s : UsbUgci) : UsbUgci :=
  ugci_kill_bulk_in_urb (ugci_kill_anchored_urbs s)

/-- Embeds `ugci_flush` (src/ugci_driver.c lines 140-162): under `io_mutex`
drain, then read out and clear `errors`, mapping -EPIPE to itself and any
other nonzero value to -EIO. -/
def ugci_flush (s : UsbUgci) : UsbUgci × Int :=
  let s1 := ugci_draw_down s
  (({ s1 with errors := 0 }),
   if s1.errors ≠ 0 then (if s1.errors = -EPIPE then -EPIPE else -EIO_err) else 0)

/-- Embeds `ugci_disconnect` (src/ugci_driver.c lines 594-616): deregister
the minor, null the interface under `io_mutex`, kill the anchored (outbound)
urbs, drop the manager's reference.  Note the C code does not kill
`bulk_in_urb` here. -/
def ugci_disconnect (s : UsbUgci) : UsbUgci :=
  let s1 := { s with registered := false }
  let s2 := { s1 with interface_present := false }
  let s3 := ugci_kill_anchored_urbs s2
  { s3 with kref := s3.kref - 1 }

/-- Embeds `ugci_suspend` (src/ugci_driver.c lines 628-636). -/
def ugci_suspend (s : UsbUgci) : UsbUgci :=
  ugci_draw_down s

/-- Embeds `ugci_pre_reset` (src/ugci_driver.c lines 643-651). -/
def ugci_pre_reset (s : UsbUgci) : UsbUgci :=
  ugci_draw_down s

/-- Embeds `ugci_post_reset` (src/ugci_driver.c lines 653-662). -/
def ugci_post_reset (s : UsbUgci) : UsbUgci :=
  { s with errors := -EPIPE }

/-- The device state `ugci_probe` builds on success (src/ugci_driver.c lines
517-592): fresh bookkeeping, a `bulk_in_buffer` of the endpoint's max packet
size `n`, the write semaphore at WRITES_IN_FLIGHT, refcount 1, registered. -/
def ugci_probe (n : Nat) : UsbUgci :=
  { registered := true
    interface_present := true
    has_bulk_in_urb := true
    bulk_in_buffer := List.replicate n 0
    bulk_in_size := n
    bulk_in_filled := 0
    bulk_in_copied := 0
    errors := 0
    ongoing_read := false
    inflight_in := 0
    inflight_in_len := 0
    limit_sem := WRITES_IN_FLIGHT
    submitted := []
    kref := 1 }

/-! Projection facts used throughout the development. -/

@[simp] theorem read_cb_ongoing (s : UsbUgci) (st : Int) (inc : List Nat) :
    (ugci_read_bulk_callback s st inc).ongoing_read = false := by
  unfold ugci_read_bulk_callback; split <;> rfl

@[simp] theorem read_cb_size (s : UsbUgci) (st : Int) (inc : List Nat) :
    (ugci_read_bulk_callback s st inc).bulk_in_size = s.bulk_in_size := by
  unfold ugci_read_bulk_callback; split <;> rfl

@[simp] theorem read_cb_copied (s : UsbUgci) (st : Int) (inc : List Nat) :
    (ugci_read_bulk_callback s st inc).bulk_in_copied = s.bulk_in_copied := by
  unfold ugci_read_bulk_callback; split <;> rfl

@[simp] theorem read_cb_urb (s : UsbUgci) (st : Int) (inc : List Nat) :
    (ugci_read_bulk_callback s st inc).has_bulk_in_urb = s.has_bulk_in_urb := by
  unfold ugci_read_bulk_callback; split <;> rfl

@[simp] theorem read_cb_intf (s : UsbUgci) (st : Int) (inc : List Nat) :
    (ugci_read_bulk_callback s st inc).interface_present = s.interface_present := by
  unfold ugci_read_bulk_callback; split <;> rfl

@[simp] theorem read_cb_sem (s : UsbUgci) (st : Int) (inc : List Nat) :
    (ugci_read_bulk_callback s st inc).limit_sem = s.limit_sem := by
  unfold ugci_read_bulk_callback; split <;> rfl

@[simp] theorem read_cb_submitted (s : UsbUgci) (st : Int) (inc : List Nat) :
    (ugci_read_bulk_callback s st inc).submitted = s.submitted := by
  unfold ugci_read_bulk_callback; split <;> rfl

@[simp] theorem read_cb_inflight (s : UsbUgci) (st : Int) (inc : List Nat) :
    (ugci_read_bulk_callback s st inc).inflight_in = s.inflight_in - 1 := by
  unfold ugci_read_bulk_callback; split <;> rfl

@[simp] theorem do_read_size (s : UsbUgci) (c : Nat) (r : Int) :
    ((ugci_do_read s c r).1).bulk_in_size = s.bulk_in_size := by
  unfold ugci_do_read; split <;> rfl

@[simp] theorem do_read_urb (s : UsbUgci) (c : Nat) (r : Int) :
    ((ugci_do_read s c r).1).has_bulk_in_urb = s.has_bulk_in_urb := by
  unfold ugci_do_read; split <;> rfl

@[simp] theorem do_read_intf (s : UsbUgci) (c : Nat) (r : Int) :
    ((ugci_do_read s c r).1).interface_present = s.interface_present := by
  unfold ugci_do_read; split <;> rfl

@[simp] theorem do_read_sem (s : UsbUgci) (c : Nat) (r : Int) :
    ((ugci_do_read s c r).1).limit_sem = s.limit_sem := by
  unfold ugci_do_read; split <;> rfl

@[simp] theorem do_read_submitted (s : UsbUgci) (c : Nat) (r : Int) :
    ((ugci_do_read s c r).1).submitted = s.submitted := by
  unfold ugci_do_read; split <;> rfl

/-- The state invariant maintained by every operation of the driver:
buffer-offset sanity, the single-inbound-transfer protocol, the permit
accounting of the bounded write path, and that recorded completion codes
are negative errno values. -/
structure Inv (s : UsbUgci) : Prop where
  copied_le : s.bulk_in_copied ≤ s.bulk_in_filled
  filled_le : s.bulk_in_filled ≤ s.bulk_in_size
  buf_len : s.bulk_in_buffer.length = s.bulk_in_size
  in_len_le : s.inflight_in_len ≤ s.bulk_in_size
  in_le : s.inflight_in ≤ 1
  ongoing_iff : s.ongoing_read = true ↔ s.inflight_in = 1
  in_fresh : s.inflight_in = 1 → s.bulk_in_copied = 0 ∧ s.bulk_in_filled = 0
  sem_sum : s.submitted.length + s.limit_sem = WRITES_IN_FLIGHT
  errors_le : s.errors ≤ 0

/-- Transport contract on the events that end waits inside a read call:
completion statuses are non-positive errno values and the hardware never
writes more than the inbound buffer can hold. -/
def WaitsOk (n : Nat) (waits : List (Option (Int × List Nat))) : Prop :=
  ∀ ev ∈ waits, ∀ st inc, ev = Option.some (st, inc) → st ≤ 0 ∧ inc.length ≤ n

theorem waitsOk_tail {n : Nat} {ev : Option (Int × List Nat)}
    {waits : List (Option (Int × List Nat))} (h : WaitsOk n (ev :: waits)) :
    WaitsOk n waits := by
  intro e he st inc hev
  exact h e (List.mem_cons_of_mem _ he) st inc hev

theorem inv_read_cb {s : UsbUgci} {st : Int} {inc : List Nat}
    (h : Inv s) (hst : st ≤ 0) (hin : 0 < s.inflight_in)
    (hlen : inc.length ≤ s.bulk_in_size) :
    Inv (ugci_read_bulk_callback s st inc) := by
  have hin1 : s.inflight_in = 1 := le_antisymm h.in_le hin
  have hfresh := h.in_fresh hin1
  unfold ugci_read_bulk_callback
  split
  case isTrue hne =>
    exact {
      copied_le := h.copied_le
      filled_le := h.filled_le
      buf_len := h.buf_len
      in_len_le := h.in_len_le
      in_le := by simp; omega
      ongoing_iff := by simp [hin1]
      in_fresh := by simp [hin1]
      sem_sum := h.sem_sum
      errors_le := hst }
  case isFalse hne =>
    have hbl : s.bulk_in_buffer.length = s.bulk_in_size := h.buf_len
    exact {
      copied_le := by simp [hfresh.1]
      filled_le := by simpa using hlen
      buf_len := by
        simp [List.length_drop]
        omega
      in_len_le := h.in_len_le
      in_le := by simp; omega
      ongoing_iff := by simp [hin1]
      in_fresh := by simp [hin1]
      sem_sum := h.sem_sum
      errors_le := h.errors_le }

theorem inv_do_read {s : UsbUgci} (h : Inv s) (hin : s.inflight_in = 0)
    (count : Nat) (srv : Int) : Inv (ugci_do_read s count srv).1 := by
  have hmin : min s.bulk_in_size count ≤ s.bulk_in_size := Nat.min_le_left _ _
  unfold ugci_do_read
  split
  case isTrue hlt =>
    exact {
      copied_le := Nat.le_refl 0
      filled_le := Nat.zero_le _
      buf_len := h.buf_len
      in_len_le := hmin
      in_le := by simp [hin]
      ongoing_iff := by simp [hin]
      in_fresh := by simp [hin]
      sem_sum := h.sem_sum
      errors_le := h.errors_le }
  case isFalse hge =>
    exact {
      copied_le := Nat.le_refl 0
      filled_le := Nat.zero_le _
      buf_len := h.buf_len
      in_len_le := hmin
      in_le := by simp [hin]
      ongoing_iff := by simp [hin]
      in_fresh := by simp
      sem_sum := h.sem_sum
      errors_le := h.errors_le }

theorem inv_write_cb {s : UsbUgci} {st : Int} {i : Nat}
    (h : Inv s) (hst : st ≤ 0) (hi : i < s.submitted.length) :
    Inv (ugci_write_bulk_callback s st i) := by
  have hlen : (s.submitted.eraseIdx i).length = s.submitted.length - 1 :=
    List.length_eraseIdx_of_lt hi
  have hsum := h.sem_sum
  unfold ugci_write_bulk_callback
  split
  case isTrue hne =>
    exact {
      copied_le := h.copied_le
      filled_le := h.filled_le
      buf_len := h.buf_len
      in_len_le := h.in_len_le
      in_le := h.in_le
      ongoing_iff := h.ongoing_iff
      in_fresh := h.in_fresh
      sem_sum := by simp [hlen]; omega
      errors_le := hst }
  case isFalse hne =>
    exact {
      copied_le := h.copied_le
      filled_le := h.filled_le
      buf_len := h.buf_len
      in_len_le := h.in_len_le
      in_le := h.in_le
      ongoing_iff := h.ongoing_iff
      in_fresh := h.in_fresh
      sem_sum := by simp [hlen]; omega
      errors_le := h.errors_le }

/-- Exhaustive shape analysis of the write path after admission: either the
pending error is reported (and cleared, permit returned), or a later failure
unwinds (permit returned, state otherwise untouched), or the submission
succeeds and the payload is anchored with the permit kept. -/
theorem write_admitted_cases (t : UsbUgci) (data : List Nat) (ws : Nat)
    (o : WriteOracle) :
    (t.errors < 0 ∧ ugci_write_admitted t data ws o =
        ({ t with errors := 0, limit_sem := t.limit_sem + 1 },
         if t.errors = -EPIPE then t.errors else -EIO_err)) ∨
    ((¬ t.errors < 0) ∧ ∃ e, (e = -ENOMEM ∨ e = -EFAULT ∨ e = -ENODEV ∨
        (e = o.submit_rv ∧ o.submit_rv ≠ 0)) ∧
      ugci_write_admitted t data ws o = ({ t with limit_sem := t.limit_sem + 1 }, e)) ∨
    ((¬ t.errors < 0) ∧ o.submit_rv = 0 ∧ ugci_write_admitted t data ws o =
        ({ t with submitted := t.submitted ++ [data.take ws] }, (ws : Int))) := by
  unfold ugci_write_admitted
  split_ifs with h1 h2 h3 h4 h5 h6 h7 <;>
    first
    | exact Or.inl ⟨h1, rfl⟩
    | exact Or.inr (Or.inl ⟨h1, -ENOMEM, Or.inl rfl, rfl⟩)
    | exact Or.inr (Or.inl ⟨h1, -EFAULT, Or.inr (Or.inl rfl), rfl⟩)
    | exact Or.inr (Or.inl ⟨h1, -ENODEV, Or.inr (Or.inr (Or.inl rfl)), rfl⟩)
    | exact Or.inr (Or.inl ⟨h1, o.submit_rv,
        Or.inr (Or.inr (Or.inr ⟨rfl, by assumption⟩)), rfl⟩)
    | exact Or.inr (Or.inr ⟨h1, by omega, rfl⟩)

/-- Exhaustive shape analysis of a completed `ugci_write` call. -/
theorem write_cases {s : UsbUgci} {data : List Nat} {count : Nat} {o : WriteOracle}
    {s1 : UsbUgci} {rv : Int}
    (hw : ugci_write s data count o = some (s1, rv)) :
    (count = 0 ∧ s1 = s ∧ rv = 0) ∨
    (count ≠ 0 ∧ s.limit_sem = 0 ∧ o.nonblock = false ∧ o.sem_interrupted = true ∧
      s1 = s ∧ rv = -ERESTARTSYS) ∨
    (count ≠ 0 ∧ s.limit_sem = 0 ∧ o.nonblock = true ∧ s1 = s ∧ rv = -EAGAIN) ∨
    (count ≠ 0 ∧ s.limit_sem ≠ 0 ∧
      ugci_write_admitted { s with limit_sem := s.limit_sem - 1 } data
        (min count MAX_TRANSFER) o = (s1, rv)) := by
  unfold ugci_write at hw
  split_ifs at hw with h1 h2 h3 h4 h5 <;>
    simp only [Option.some.injEq, Prod.mk.injEq, reduceCtorEq] at hw
  · exact Or.inl ⟨h1, hw.1.symm, hw.2.symm⟩
  · exact Or.inr (Or.inr (Or.inr ⟨h1, h3, by rw [hw]⟩))
  · exact Or.inr (Or.inl ⟨h1, by omega, h2, h4, hw.1.symm, hw.2.symm⟩)
  · exact Or.inr (Or.inr (Or.inr ⟨h1, h5, by rw [hw]⟩))
  · exact Or.inr (Or.inr (Or.inl ⟨h1, by omega, by simpa using h2, hw.1.symm, hw.2.symm⟩))

theorem inv_write {s : UsbUgci} {data : List Nat} {count : Nat} {o : WriteOracle}
    {s1 : UsbUgci} {rv : Int} (h : Inv s)
    (hw : ugci_write s data count o = some (s1, rv)) : Inv s1 := by
  rcases write_cases hw with ⟨_, rfl, _⟩ | ⟨_, _, _, _, rfl, _⟩ | ⟨_, _, _, rfl, _⟩ |
    ⟨_, hsem, hadm⟩
  · exact h
  · exact h
  · exact h
  · rcases write_admitted_cases { s with limit_sem := s.limit_sem - 1 } data
      (min count MAX_TRANSFER) o with ⟨_, heq⟩ | ⟨_, e, _, heq⟩ | ⟨_, _, heq⟩ <;>
      rw [hadm] at heq <;> cases heq
    · exact {
        copied_le := h.copied_le
        filled_le := h.filled_le
        buf_len := h.buf_len
        in_len_le := h.in_len_le
        in_le := h.in_le
        ongoing_iff := h.ongoing_iff
        in_fresh := h.in_fresh
        sem_sum := by have := h.sem_sum; simp; omega
        errors_le := by simp }
    · exact {
        copied_le := h.copied_le
        filled_le := h.filled_le
        buf_len := h.buf_len
        in_len_le := h.in_len_le
        in_le := h.in_le
        ongoing_iff := h.ongoing_iff
        in_fresh := h.in_fresh
        sem_sum := by have := h.sem_sum; simp; omega
        errors_le := h.errors_le }
    · exact {
        copied_le := h.copied_le
        filled_le := h.filled_le
        buf_len := h.buf_len
        in_len_le := h.in_len_le
        in_le := h.in_le
        ongoing_iff := h.ongoing_iff
        in_fresh := h.in_fresh
        sem_sum := by have := h.sem_sum; simp; omega
        errors_le := h.errors_le }

/-- What one trip of the read loop guarantees: a returned or re-looping state
keeps the invariant and the buffer size, and the remaining wait events still
satisfy the transport contract. -/
def IterOk (n : Nat) : IterOut → Prop
  | IterOut.done s1 _ _ => Inv s1 ∧ s1.bulk_in_size = n
  | IterOut.again s1 w2 _ => Inv s1 ∧ s1.bulk_in_size = n ∧ WaitsOk n w2
  | IterOut.stuck => True

theorem ongoing_false_inflight {s : UsbUgci} (h : Inv s)
    (ho : s.ongoing_read = false) : s.inflight_in = 0 := by
  have h1 := h.ongoing_iff
  have h2 := h.in_le
  rw [ho] at h1
  simp at h1
  omega

theorem inv_tail {s : UsbUgci} (count : Nat)
    (waits : List (Option (Int × List Nat))) (submits : List Int) (cok : Bool)
    (h : Inv s) (hin : s.inflight_in = 0) (hwk : WaitsOk s.bulk_in_size waits) :
    IterOk s.bulk_in_size (ugci_read_tail s count waits submits cok) := by
  have hdel : Inv { s with bulk_in_copied :=
      s.bulk_in_copied + min (s.bulk_in_filled - s.bulk_in_copied) count } := by
    have hm := Nat.min_le_left (s.bulk_in_filled - s.bulk_in_copied) count
    have hc := h.copied_le
    exact {
      copied_le := by simp; omega
      filled_le := h.filled_le
      buf_len := h.buf_len
      in_len_le := h.in_len_le
      in_le := h.in_le
      ongoing_iff := h.ongoing_iff
      in_fresh := by simp [hin]
      sem_sum := h.sem_sum
      errors_le := h.errors_le }
  have hdel_in : ({ s with bulk_in_copied :=
      s.bulk_in_copied + min (s.bulk_in_filled - s.bulk_in_copied) count } :
        UsbUgci).inflight_in = 0 := hin
  unfold ugci_read_tail
  dsimp only
  split
  · exact ⟨{
      copied_le := h.copied_le
      filled_le := h.filled_le
      buf_len := h.buf_len
      in_len_le := h.in_len_le
      in_le := h.in_le
      ongoing_iff := h.ongoing_iff
      in_fresh := h.in_fresh
      sem_sum := h.sem_sum
      errors_le := by simp }, rfl⟩
  · split
    · split
      · split
        · trivial
        · split
          · exact ⟨inv_do_read h hin _ _, by simp⟩
          · exact ⟨inv_do_read h hin _ _, by simp, hwk⟩
      · split
        · split
          · trivial
          · exact ⟨inv_do_read hdel hdel_in _ _, by simp⟩
        · exact ⟨hdel, rfl⟩
    · split
      · trivial
      · split
        · exact ⟨inv_do_read h hin _ _, by simp⟩
        · exact ⟨inv_do_read h hin _ _, by simp, hwk⟩

theorem inv_retry {s : UsbUgci} (count : Nat) (nb : Bool)
    (waits : List (Option (Int × List Nat))) (submits : List Int) (cok : Bool)
    (h : Inv s) (hwk : WaitsOk s.bulk_in_size waits) :
    IterOk s.bulk_in_size (ugci_read_retry s count nb waits submits cok) := by
  unfold ugci_read_retry
  split
  case isTrue hon =>
    have hin1 : s.inflight_in = 1 := h.ongoing_iff.mp (by simpa using hon)
    split
    · exact ⟨h, rfl⟩
    · match waits, hwk with
      | [], _ => trivial
      | Option.none :: w2, _ => exact ⟨h, rfl⟩
      | Option.some (st, inc) :: w2, hwk =>
        have hev := hwk (Option.some (st, inc)) (List.mem_cons_self _ _) st inc rfl
        have hcb : Inv (ugci_read_bulk_callback s st inc) :=
          inv_read_cb h hev.1 (by omega) hev.2
        have hcb_in : (ugci_read_bulk_callback s st inc).inflight_in = 0 := by
          simp [hin1]
        have := inv_tail count w2 submits cok hcb hcb_in
          (by simpa using waitsOk_tail hwk)
        simpa using this
  case isFalse hon =>
    exact inv_tail count waits submits cok h
      (ongoing_false_inflight h (by simpa using hon)) hwk

theorem inv_go : ∀ (fuel : Nat) {s : UsbUgci} {count : Nat} {nb : Bool}
    {waits : List (Option (Int × List Nat))} {submits : List Int} {cok : Bool}
    {out : UsbUgci × Int × List Nat},
    Inv s → WaitsOk s.bulk_in_size waits →
    ugci_read_go fuel s count nb waits submits cok = some out → Inv out.1 := by
  intro fuel
  induction fuel with
  | zero =>
    intro s count nb waits submits cok out _ _ hgo
    simp [ugci_read_go] at hgo
  | succ f ih =>
    intro s count nb waits submits cok out h hwk hgo
    rw [ugci_read_go] at hgo
    rcases hret : ugci_read_retry s count nb waits submits cok with
      ⟨s1, rv, d⟩ | ⟨s1, w2, sub2⟩ | _ <;> rw [hret] at hgo
    · have hok := inv_retry count nb waits submits cok h hwk
      rw [hret] at hok
      cases hgo
      exact hok.1
    · have hok := inv_retry count nb waits submits cok h hwk
      rw [hret] at hok
      exact ih hok.1 (by rw [hok.2.1]; exact hok.2.2) hgo
    · cases hgo

theorem inv_read {s : UsbUgci} {count : Nat} {nb mi : Bool} {fuel : Nat}
    {waits : List (Option (Int × List Nat))} {submits : List Int} {cok : Bool}
    {s1 : UsbUgci} {rv : Int} {d : List Nat}
    (h : Inv s) (hwk : WaitsOk s.bulk_in_size waits)
    (hr : ugci_read s count nb mi fuel waits submits cok = some (s1, rv, d)) :
    Inv s1 := by
  unfold ugci_read at hr
  split_ifs at hr with h1 h2 h3 <;>
    [skip; skip; skip;
     exact inv_go fuel h hwk hr] <;>
    · simp only [Option.some.injEq, Prod.mk.injEq] at hr
      rw [← hr.1]
      exact h

@[simp] theorem write_cb_submitted (s : UsbUgci) (st : Int) (i : Nat) :
    (ugci_write_bulk_callback s st i).submitted = s.submitted.eraseIdx i := by
  unfold ugci_write_bulk_callback; split <;> rfl

@[simp] theorem write_cb_sem (s : UsbUgci) (st : Int) (i : Nat) :
    (ugci_write_bulk_callback s st i).limit_sem = s.limit_sem + 1 := by
  unfold ugci_write_bulk_callback; split <;> rfl

@[simp] theorem write_cb_inflight (s : UsbUgci) (st : Int) (i : Nat) :
    (ugci_write_bulk_callback s st i).inflight_in = s.inflight_in := by
  unfold ugci_write_bulk_callback; split <;> rfl

@[simp] theorem write_cb_ongoing (s : UsbUgci) (st : Int) (i : Nat) :
    (ugci_write_bulk_callback s st i).ongoing_read = s.ongoing_read := by
  unfold ugci_write_bulk_callback; split <;> rfl

@[simp] theorem write_cb_kref (s : UsbUgci) (st : Int) (i : Nat) :
    (ugci_write_bulk_callback s st i).kref = s.kref := by
  unfold ugci_write_bulk_callback; split <;> rfl

@[simp] theorem write_cb_registered (s : UsbUgci) (st : Int) (i : Nat) :
    (ugci_write_bulk_callback s st i).registered = s.registered := by
  unfold ugci_write_bulk_callback; split <;> rfl

@[simp] theorem write_cb_intf (s : UsbUgci) (st : Int) (i : Nat) :
    (ugci_write_bulk_callback s st i).interface_present = s.interface_present := by
  unfold ugci_write_bulk_callback; split <;> rfl

@[simp] theorem write_cb_copied (s : UsbUgci) (st : Int) (i : Nat) :
    (ugci_write_bulk_callback s st i).bulk_in_copied = s.bulk_in_copied := by
  unfold ugci_write_bulk_callback; split <;> rfl

theorem inv_kill_n : ∀ (n : Nat) (s : UsbUgci), Inv s → n ≤ s.submitted.length →
    Inv (ugci_kill_n n s) := by
  intro n
  induction n with
  | zero => intro s h _; exact h
  | succ m ih =>
    intro s h hle
    have hpos : 0 < s.submitted.length := by omega
    have hcb := @inv_write_cb s (-ENOENT) 0 h (by decide) hpos
    refine ih _ hcb ?_
    simp [List.length_eraseIdx_of_lt hpos]
    omega

theorem inv_kill_anchored {s : UsbUgci} (h : Inv s) :
    Inv (ugci_kill_anchored_urbs s) :=
  inv_kill_n _ s h (Nat.le_refl _)

theorem inv_kill_bulk_in {s : UsbUgci} (h : Inv s) :
    Inv (ugci_kill_bulk_in_urb s) := by
  unfold ugci_kill_bulk_in_urb
  split
  case isTrue hpos => exact inv_read_cb h (by decide) hpos (by simp)
  case isFalse _ => exact h

theorem inv_draw_down {s : UsbUgci} (h : Inv s) : Inv (ugci_draw_down s) :=
  inv_kill_bulk_in (inv_kill_anchored h)

theorem inv_flush {s : UsbUgci} (h : Inv s) : Inv (ugci_flush s).1 := by
  have hd := inv_draw_down h
  exact {
    copied_le := hd.copied_le
    filled_le := hd.filled_le
    buf_len := hd.buf_len
    in_len_le := hd.in_len_le
    in_le := hd.in_le
    ongoing_iff := hd.ongoing_iff
    in_fresh := hd.in_fresh
    sem_sum := hd.sem_sum
    errors_le := by simp [ugci_flush] }

theorem inv_disconnect {s : UsbUgci} (h : Inv s) : Inv (ugci_disconnect s) := by
  have h2 : Inv { s with registered := false, interface_present := false } :=
    { copied_le := h.copied_le, filled_le := h.filled_le, buf_len := h.buf_len
      in_len_le := h.in_len_le, in_le := h.in_le, ongoing_iff := h.ongoing_iff
      in_fresh := h.in_fresh, sem_sum := h.sem_sum, errors_le := h.errors_le }
  have h3 := inv_kill_anchored h2
  exact {
    copied_le := h3.copied_le, filled_le := h3.filled_le, buf_len := h3.buf_len
    in_len_le := h3.in_len_le, in_le := h3.in_le, ongoing_iff := h3.ongoing_iff
    in_fresh := h3.in_fresh, sem_sum := h3.sem_sum, errors_le := h3.errors_le }

theorem inv_post_reset {s : UsbUgci} (h : Inv s) : Inv (ugci_post_reset s) :=
  { copied_le := h.copied_le, filled_le := h.filled_le, buf_len := h.buf_len
    in_len_le := h.in_len_le, in_le := h.in_le, ongoing_iff := h.ongoing_iff
    in_fresh := h.in_fresh, sem_sum := h.sem_sum
    errors_le := by simp [ugci_post_reset]; decide }

/-- One atomic step of the sequentialized system: a completed entry-point
call, a transport completion (with the transport contract: non-positive
status, a completion only for an outstanding urb, data bounded by the
requested length), or a lifecycle callback. -/
inductive Step : UsbUgci → UsbUgci → Prop
  | read_call (s : UsbUgci) (count : Nat) (nonblock mutex_intr : Bool) (fuel : Nat)
      (waits : List (Option (Int × List Nat))) (submits : List Int) (cok : Bool)
      (s1 : UsbUgci) (rv : Int) (d : List Nat)
      (hwk : WaitsOk s.bulk_in_size waits)
      (h : ugci_read s count nonblock mutex_intr fuel waits submits cok =
        some (s1, rv, d)) :
      Step s s1
  | write_call (s : UsbUgci) (data : List Nat) (count : Nat) (o : WriteOracle)
      (s1 : UsbUgci) (rv : Int)
      (h : ugci_write s data count o = some (s1, rv)) : Step s s1
  | write_complete (s : UsbUgci) (status : Int) (i : Nat)
      (hst : status ≤ 0) (hi : i < s.submitted.length) :
      Step s (ugci_write_bulk_callback s status i)
  | read_complete (s : UsbUgci) (status : Int) (incoming : List Nat)
      (hst : status ≤ 0) (hin : 0 < s.inflight_in)
      (hlen : incoming.length ≤ s.inflight_in_len) :
      Step s (ugci_read_bulk_callback s status incoming)
  | flush_call (s : UsbUgci) : Step s (ugci_flush s).1
  | disconnect_call (s : UsbUgci) : Step s (ugci_disconnect s)
  | suspend_call (s : UsbUgci) : Step s (ugci_suspend s)
  | pre_reset_call (s : UsbUgci) : Step s (ugci_pre_reset s)
  | post_reset_call (s : UsbUgci) : Step s (ugci_post_reset s)

/-- States reachable from a freshly probed device with inbound buffer
capacity `n`. -/
def Reachable (n : Nat) (s : UsbUgci) : Prop :=
  Relation.ReflTransGen Step (ugci_probe n) s

theorem inv_probe (n : Nat) : Inv (ugci_probe n) :=
  { copied_le := Nat.le_refl 0, filled_le := Nat.zero_le n
    buf_len := List.length_replicate n 0
    in_len_le := Nat.zero_le n, in_le := by simp [ugci_probe]
    ongoing_iff := by simp [ugci_probe]
    in_fresh := by simp [ugci_probe]
    sem_sum := by simp [ugci_probe]
    errors_le := by simp [ugci_probe] }

theorem inv_step {s s1 : UsbUgci} (h : Inv s) (hs : Step s s1) : Inv s1 := by
  cases hs with
  | read_call count nonblock mutex_intr fuel waits submits cok s1 rv d hwk hr =>
    exact inv_read h hwk hr
  | write_call data count o s1 rv hw => exact inv_write h hw
  | write_complete status i hst hi => exact inv_write_cb h hst hi
  | read_complete status incoming hst hin hlen =>
    exact inv_read_cb h hst hin (Nat.le_trans hlen h.in_len_le)
  | flush_call => exact inv_flush h
  | disconnect_call => exact inv_disconnect h
  | suspend_call => exact inv_draw_down h
  | pre_reset_call => exact inv_draw_down h
  | post_reset_call => exact inv_post_reset h

theorem inv_reachable {n : Nat} {s : UsbUgci} (h : Reachable n s) : Inv s := by
  induction h with
  | refl => exact inv_probe n
  | tail _ hstep ih => exact inv_step ih hstep

/-! Behavioral lemmas about the individual call paths, used by the claim
theorems below. -/

theorem read_trivial {s : UsbUgci} {count : Nat} {nb mi : Bool} {fuel : Nat}
    {waits : List (Option (Int × List Nat))} {submits : List Int} {cok : Bool}
    (h : s.has_bulk_in_urb = false ∨ count = 0) :
    ugci_read s count nb mi fuel waits submits cok = some (s, 0, []) := by
  unfold ugci_read
  rw [if_pos h]

theorem read_error_report {s : UsbUgci} (count : Nat) (nb : Bool) (fuel : Nat)
    (waits : List (Option (Int × List Nat))) (submits : List Int) (cok : Bool)
    (hurb : s.has_bulk_in_urb = true) (hintf : s.interface_present = true)
    (hcount : count ≠ 0) (hong : s.ongoing_read = false) (herr : s.errors < 0) :
    ugci_read s count nb false (fuel + 1) waits submits cok =
      some ({ s with errors := 0 },
        (if s.errors = -EPIPE then s.errors else -EIO_err), []) := by
  unfold ugci_read
  rw [if_neg (by simp [hurb, hcount]), if_neg (by simp), if_neg (by simp [hintf])]
  rw [ugci_read_go]
  unfold ugci_read_retry
  rw [if_neg (by simp [hong])]
  unfold ugci_read_tail
  rw [if_pos herr]

theorem read_delivery {s : UsbUgci} (count : Nat) (nb : Bool) (fuel : Nat)
    (waits : List (Option (Int × List Nat))) (submits : List Int) (cok : Bool)
    (hurb : s.has_bulk_in_urb = true) (hintf : s.interface_present = true)
    (hcount : count ≠ 0) (hong : s.ongoing_read = false)
    (herr : ¬ s.errors < 0)
    (hav : s.bulk_in_filled - s.bulk_in_copied ≠ 0)
    (hcle : count ≤ s.bulk_in_filled - s.bulk_in_copied) :
    ugci_read s count nb false (fuel + 1) waits submits cok =
      some ({ s with bulk_in_copied := s.bulk_in_copied + count },
        (if cok then (count : Int) else -EFAULT),
        (if cok then (s.bulk_in_buffer.drop s.bulk_in_copied).take count else [])) := by
  have hfilled : s.bulk_in_filled ≠ 0 := by omega
  have hchunk : min (s.bulk_in_filled - s.bulk_in_copied) count = count :=
    Nat.min_eq_right hcle
  have hnlt : ¬ s.bulk_in_filled - s.bulk_in_copied < count := by omega
  unfold ugci_read
  rw [if_neg (by simp [hurb, hcount]), if_neg (by simp), if_neg (by simp [hintf])]
  rw [ugci_read_go]
  unfold ugci_read_retry
  rw [if_neg (by simp [hong])]
  unfold ugci_read_tail
  rw [if_neg herr, if_pos hfilled, if_neg hav]
  simp [hchunk, hnlt]

theorem read_delivery_resubmit {s : UsbUgci} (count : Nat) (nb : Bool) (fuel : Nat)
    (waits : List (Option (Int × List Nat))) (srv : Int) (submits2 : List Int)
    (cok : Bool)
    (hurb : s.has_bulk_in_urb = true) (hintf : s.interface_present = true)
    (hcount : count ≠ 0) (hong : s.ongoing_read = false)
    (herr : ¬ s.errors < 0)
    (hav : s.bulk_in_filled - s.bulk_in_copied ≠ 0)
    (hlt : s.bulk_in_filled - s.bulk_in_copied < count) :
    ugci_read s count nb false (fuel + 1) waits (srv :: submits2) cok =
      some ((ugci_do_read
          { s with bulk_in_copied :=
              s.bulk_in_copied + (s.bulk_in_filled - s.bulk_in_copied) }
          (count - (s.bulk_in_filled - s.bulk_in_copied)) srv).1,
        (if cok then ((s.bulk_in_filled - s.bulk_in_copied : Nat) : Int) else -EFAULT),
        (if cok then (s.bulk_in_buffer.drop s.bulk_in_copied).take
            (s.bulk_in_filled - s.bulk_in_copied) else [])) := by
  have hfilled : s.bulk_in_filled ≠ 0 := by omega
  have hchunk : min (s.bulk_in_filled - s.bulk_in_copied) count =
      s.bulk_in_filled - s.bulk_in_copied := Nat.min_eq_left (Nat.le_of_lt hlt)
  unfold ugci_read
  rw [if_neg (by simp [hurb, hcount]), if_neg (by simp), if_neg (by simp [hintf])]
  rw [ugci_read_go]
  unfold ugci_read_retry
  rw [if_neg (by simp [hong])]
  unfold ugci_read_tail
  rw [if_neg herr, if_pos hfilled, if_neg hav]
  simp [hchunk, hlt]

theorem read_nonblock_busy {s : UsbUgci} (count : Nat) (fuel : Nat)
    (waits : List (Option (Int × List Nat))) (submits : List Int) (cok : Bool)
    (hurb : s.has_bulk_in_urb = true) (hintf : s.interface_present = true)
    (hcount : count ≠ 0) (hong : s.ongoing_read = true) :
    ugci_read s count true false (fuel + 1) waits submits cok =
      some (s, -EAGAIN, []) := by
  unfold ugci_read
  rw [if_neg (by simp [hurb, hcount]), if_neg (by simp), if_neg (by simp [hintf])]
  rw [ugci_read_go]
  unfold ugci_read_retry
  rw [if_pos (by simp [hong])]
  rfl

theorem read_wait_interrupted {s : UsbUgci} (count : Nat) (fuel : Nat)
    (waits : List (Option (Int × List Nat))) (submits : List Int) (cok : Bool)
    (hurb : s.has_bulk_in_urb = true) (hintf : s.interface_present = true)
    (hcount : count ≠ 0) (hong : s.ongoing_read = true) :
    ugci_read s count false false (fuel + 1) (Option.none :: waits) submits cok =
      some (s, -ERESTARTSYS, []) := by
  unfold ugci_read
  rw [if_neg (by simp [hurb, hcount]), if_neg (by simp), if_neg (by simp [hintf])]
  rw [ugci_read_go]
  unfold ugci_read_retry
  rw [if_pos (by simp [hong])]
  rfl

theorem do_read_fail {s : UsbUgci} {count : Nat} {srv : Int} (h : srv < 0) :
    ((ugci_do_read s count srv).1).ongoing_read = false ∧
    ((ugci_do_read s count srv).1).inflight_in = s.inflight_in ∧
    (ugci_do_read s count srv).2 = (if srv = -ENOMEM then srv else -EIO_err) := by
  unfold ugci_do_read
  rw [if_pos h]
  exact ⟨rfl, rfl, rfl⟩

theorem kill_n_fields : ∀ (n : Nat) (s : UsbUgci),
    (ugci_kill_n n s).submitted = s.submitted.drop n ∧
    (ugci_kill_n n s).inflight_in = s.inflight_in ∧
    (ugci_kill_n n s).ongoing_read = s.ongoing_read ∧
    (ugci_kill_n n s).kref = s.kref ∧
    (ugci_kill_n n s).registered = s.registered ∧
    (ugci_kill_n n s).interface_present = s.interface_present ∧
    (ugci_kill_n n s).bulk_in_copied = s.bulk_in_copied := by
  intro n
  induction n with
  | zero => intro s; simp [ugci_kill_n]
  | succ m ih =>
    intro s
    have h := ih (ugci_write_bulk_callback s (-ENOENT) 0)
    refine ⟨?_, ?_, ?_, ?_, ?_, ?_, ?_⟩ <;>
      simp only [ugci_kill_n, h.1, h.2.1, h.2.2.1, h.2.2.2.1, h.2.2.2.2.1,
        h.2.2.2.2.2.1, h.2.2.2.2.2.2] <;>
      simp [List.eraseIdx_zero, ← List.drop_one, List.drop_drop, Nat.add_comm]

theorem kill_anchored_fields (s : UsbUgci) :
    (ugci_kill_anchored_urbs s).submitted = [] ∧
    (ugci_kill_anchored_urbs s).inflight_in = s.inflight_in ∧
    (ugci_kill_anchored_urbs s).ongoing_read = s.ongoing_read ∧
    (ugci_kill_anchored_urbs s).kref = s.kref ∧
    (ugci_kill_anchored_urbs s).registered = s.registered ∧
    (ugci_kill_anchored_urbs s).interface_present = s.interface_present := by
  have h := kill_n_fields s.submitted.length s
  unfold ugci_kill_anchored_urbs
  exact ⟨by rw [h.1, List.drop_length], h.2.1, h.2.2.1, h.2.2.2.1,
    h.2.2.2.2.1, h.2.2.2.2.2.1⟩

theorem kill_bulk_in_fields (s : UsbUgci) :
    (ugci_kill_bulk_in_urb s).submitted = s.submitted ∧
    ((s.inflight_in ≤ 1) → (ugci_kill_bulk_in_urb s).inflight_in = 0) := by
  unfold ugci_kill_bulk_in_urb
  split
  case isTrue hpos => exact ⟨by simp, fun h => by simp; omega⟩
  case isFalse hneg => exact ⟨rfl, fun _ => by omega⟩

theorem draw_down_fields (s : UsbUgci) :
    (ugci_draw_down s).submitted = [] ∧
    ((s.inflight_in ≤ 1) → (ugci_draw_down s).inflight_in = 0) := by
  have h1 := kill_anchored_fields s
  have h2 := kill_bulk_in_fields (ugci_kill_anchored_urbs s)
  unfold ugci_draw_down
  exact ⟨by rw [h2.1, h1.1], fun h => h2.2 (by rw [h1.2.1]; exact h)⟩

theorem draw_down_drained {s : UsbUgci} (h1 : s.submitted = [])
    (h2 : s.inflight_in = 0) : ugci_draw_down s = s := by
  unfold ugci_draw_down ugci_kill_anchored_urbs
  rw [h1]
  simp only [List.length_nil, ugci_kill_n]
  unfold ugci_kill_bulk_in_urb
  rw [if_neg (by omega)]

theorem write_success_shape {s : UsbUgci} {data : List Nat} {count : Nat}
    {o : WriteOracle} {s1 : UsbUgci} {rv : Int}
    (hsub : o.submit_rv ≤ 0) (hc : count ≠ 0)
    (hw : ugci_write s data count o = some (s1, rv)) (hrv : 0 ≤ rv) :
    rv = ((min count MAX_TRANSFER : Nat) : Int) ∧
    s1 = { s with limit_sem := s.limit_sem - 1,
                  submitted := s.submitted ++ [data.take (min count MAX_TRANSFER)] } ∧
    s.limit_sem ≠ 0 := by
  rcases write_cases hw with ⟨h0, _, _⟩ | ⟨_, _, _, _, _, hrv2⟩ | ⟨_, _, _, _, hrv2⟩ |
    ⟨_, hsem, hadm⟩
  · exact absurd h0 hc
  · rw [hrv2] at hrv; exact absurd hrv (by decide)
  · rw [hrv2] at hrv; exact absurd hrv (by decide)
  · rcases write_admitted_cases { s with limit_sem := s.limit_sem - 1 } data
      (min count MAX_TRANSFER) o with ⟨he, heq⟩ | ⟨_, e, hee, heq⟩ | ⟨_, _, heq⟩ <;>
      rw [hadm] at heq <;>
      simp only [Prod.mk.injEq] at heq
    · exfalso
      rw [heq.2] at hrv
      have hEP : (0 : Int) < EPIPE := by decide
      have hEI : (0 : Int) < EIO_err := by decide
      split_ifs at hrv <;> omega
    · exfalso
      rw [heq.2] at hrv
      rcases hee with rfl | rfl | rfl | ⟨rfl, hne⟩ <;> revert hrv <;> first
        | decide
        | omega
    · exact ⟨heq.2, heq.1, hsem⟩

/-! The claims. -/

/-- C1, counterexample: the claim says a cancellation-class completion status
(request cancelled -ENOENT, endpoint shut down -ESHUTDOWN, connection reset
-ECONNRESET) records no error and no subsequent call reports an error for it.
On the code this is false: `ugci_read_bulk_callback` and
`ugci_write_bulk_callback` assign `dev->errors = urb->status` for every
nonzero status — the cancellation-class test only suppresses the log line —
and the next read call maps the recorded -ENOENT to -EIO and returns it. -/
theorem C1_counterexample :
    (ugci_read_bulk_callback (ugci_probe 8) (-ENOENT) []).errors = -ENOENT ∧
    (ugci_write_bulk_callback { ugci_probe 8 with submitted := [[1]], limit_sem := 7 }
        (-ESHUTDOWN) 0).errors = -ESHUTDOWN ∧
    ugci_read (ugci_read_bulk_callback (ugci_probe 8) (-ENOENT) []) 4 false false 1
        [] [] true
      = some ({ ugci_probe 8 with errors := 0 }, -EIO_err, []) := by decide

/-- C1, amended: a cancellation-class completion status is not logged, but it
is recorded into `errors` (`lastError`) exactly like any other nonzero
status, and is later surfaced to a caller. -/
theorem C1_cancellation_recorded (s : UsbUgci) (st : Int) (inc : List Nat) (i : Nat)
    (hst : st ≠ 0) :
    (ugci_read_bulk_callback s st inc).errors = st ∧
    (ugci_write_bulk_callback s st i).errors = st := by
  refine ⟨?_, ?_⟩
  · unfold ugci_read_bulk_callback
    rw [if_pos hst]
  · unfold ugci_write_bulk_callback
    rw [if_pos hst]

theorem C1_cancellation_recorded_witness :
    (-ECONNRESET : Int) ≠ 0 ∧
    (ugci_read_bulk_callback (ugci_probe 8) (-ECONNRESET) []).errors = -ECONNRESET ∧
    (ugci_write_bulk_callback (ugci_probe 8) (-ECONNRESET) 0).errors = -ECONNRESET :=
  ⟨by decide, C1_cancellation_recorded (ugci_probe 8) (-ECONNRESET) [] 0 (by decide)⟩

/-- C2: a negative code recorded in `errors` (completion statuses are
negative errno values) is cleared and returned by the first read or write
call that observes it, mapped to -EPIPE (DeviceReset) when it is the
reset/pipe code and to -EIO (IOError) otherwise; and after that observation
a call finding `errors = 0` returns data normally instead of the old
error. -/
theorem C2_error_reported_once :
    (∀ (s : UsbUgci) (count : Nat) (nb : Bool) (fuel : Nat)
       (waits : List (Option (Int × List Nat))) (submits : List Int) (cok : Bool),
       s.has_bulk_in_urb = true → s.interface_present = true → count ≠ 0 →
       s.ongoing_read = false → s.errors < 0 →
       ugci_read s count nb false (fuel + 1) waits submits cok =
         some ({ s with errors := 0 },
           (if s.errors = -EPIPE then s.errors else -EIO_err), [])) ∧
    (∀ (s : UsbUgci) (data : List Nat) (count : Nat) (o : WriteOracle),
       count ≠ 0 → s.limit_sem ≠ 0 → s.errors < 0 →
       ugci_write s data count o =
         some ({ s with errors := 0, limit_sem := s.limit_sem - 1 + 1 },
           (if s.errors = -EPIPE then s.errors else -EIO_err))) ∧
    (∀ (s : UsbUgci) (count : Nat) (nb : Bool) (fuel : Nat)
       (waits : List (Option (Int × List Nat))) (submits : List Int),
       s.has_bulk_in_urb = true → s.interface_present = true → count ≠ 0 →
       s.ongoing_read = false → s.errors = 0 →
       s.bulk_in_filled - s.bulk_in_copied ≠ 0 →
       count ≤ s.bulk_in_filled - s.bulk_in_copied →
       ugci_read s count nb false (fuel + 1) waits submits true =
         some ({ s with bulk_in_copied := s.bulk_in_copied + count },
           (count : Int), (s.bulk_in_buffer.drop s.bulk_in_copied).take count)) := by
  refine ⟨?_, ?_, ?_⟩
  · intro s count nb fuel waits submits cok hurb hintf hcount hong herr
    exact read_error_report count nb fuel waits submits cok hurb hintf hcount hong herr
  · intro s data count o hcount hsem herr
    unfold ugci_write
    rw [if_neg hcount]
    by_cases hnb : o.nonblock = false
    · rw [if_pos hnb, if_pos hsem]
      unfold ugci_write_admitted
      dsimp only
      rw [if_pos herr]
    · rw [if_neg hnb, if_pos hsem]
      unfold ugci_write_admitted
      dsimp only
      rw [if_pos herr]
  · intro s count nb fuel waits submits hurb hintf hcount hong herr hav hcle
    have h := read_delivery count nb fuel waits submits true hurb hintf hcount hong
      (by omega) hav hcle
    simpa using h

theorem C2_error_reported_once_witness :
    ugci_read { ugci_probe 4 with errors := -EPIPE } 2 false false 1 [] [] true
      = some ({ ugci_probe 4 with errors := 0 }, -EPIPE, []) ∧
    ugci_write { ugci_probe 4 with errors := -ENOENT } [9] 1
        ⟨false, false, true, true, true, 0⟩
      = some ({ ugci_probe 4 with errors := 0 }, -EIO_err) ∧
    ugci_read { ugci_probe 4 with bulk_in_filled := 3, bulk_in_buffer := [5, 6, 7, 0] }
        2 false false 1 [] [] true
      = some ({ ugci_probe 4 with bulk_in_filled := 3, bulk_in_buffer := [5, 6, 7, 0], bulk_in_copied := 2 }, 2, [5, 6]) := by
  refine ⟨?_, ?_, ?_⟩
  · have h := C2_error_reported_once.1 { ugci_probe 4 with errors := -EPIPE }
      2 false 0 [] [] true (by decide) (by decide) (by decide) (by decide) (by decide)
    simpa using h
  · have h := C2_error_reported_once.2.1 { ugci_probe 4 with errors := -ENOENT }
      [9] 1 ⟨false, false, true, true, true, 0⟩ (by decide) (by decide) (by decide)
    simpa using h
  · have h := C2_error_reported_once.2.2
      { ugci_probe 4 with bulk_in_filled := 3, bulk_in_buffer := [5, 6, 7, 0] }
      2 false 0 [] [] (by decide) (by decide) (by decide) (by decide) (by decide)
      (by decide) (by decide)
    simpa using h

/-- C3, counterexample: the claim says detach force-cancels all in-flight
requests including the outstanding inbound request.  On the code this is
false: `ugci_disconnect` calls `usb_kill_anchored_urbs` for the outbound
writes but never `usb_kill_urb(dev->bulk_in_urb)`, so an outstanding
inbound transfer survives detach. -/
theorem C3_counterexample :
    (ugci_disconnect { ugci_probe 8 with inflight_in := 1, ongoing_read := true, inflight_in_len := 8 }).inflight_in = 1 ∧
    (ugci_disconnect { ugci_probe 8 with inflight_in := 1, ongoing_read := true, inflight_in_len := 8 }).ongoing_read = true := by decide

/-- C3, amended: detach deregisters from the handle-allocation collaborator,
clears the attachment reference, force-cancels every outstanding outbound
write request, and releases the manager's reference — but it does not cancel
the outstanding inbound request, which is left untouched. -/
theorem C3_disconnect (s : UsbUgci) :
    (ugci_disconnect s).registered = false ∧
    (ugci_disconnect s).interface_present = false ∧
    (ugci_disconnect s).submitted = [] ∧
    (ugci_disconnect s).kref = s.kref - 1 ∧
    (ugci_disconnect s).inflight_in = s.inflight_in ∧
    (ugci_disconnect s).ongoing_read = s.ongoing_read := by
  have h := kill_anchored_fields
    { s with registered := false, interface_present := false }
  unfold ugci_disconnect
  dsimp only
  exact ⟨by rw [h.2.2.2.2.1], by rw [h.2.2.2.2.2], by rw [h.1],
    by rw [h.2.2.2.1], by rw [h.2.1], by rw [h.2.2.1]⟩

/-- C4: permit accounting of the bounded write path.  In every reachable
state the outstanding writes and the free permits sum to WRITES_IN_FLIGHT
(so at most 8 writes are outstanding); a write call that returns an error
leaves the permit count and the outstanding set exactly as before (every
failing exit releases what it took); a successful write holds exactly one
permit and adds exactly one outstanding request; and an outbound
completion releases exactly one permit and removes exactly one outstanding
request whatever its status. -/
theorem C4_bounded_writes :
    (∀ (n : Nat) (s : UsbUgci), Reachable n s →
       s.submitted.length ≤ WRITES_IN_FLIGHT ∧
       s.submitted.length + s.limit_sem = WRITES_IN_FLIGHT) ∧
    (∀ (s : UsbUgci) (data : List Nat) (count : Nat) (o : WriteOracle)
       (s1 : UsbUgci) (rv : Int),
       ugci_write s data count o = some (s1, rv) → rv < 0 →
       s1.limit_sem = s.limit_sem ∧ s1.submitted = s.submitted) ∧
    (∀ (s : UsbUgci) (data : List Nat) (count : Nat) (o : WriteOracle)
       (s1 : UsbUgci) (rv : Int),
       o.submit_rv ≤ 0 → count ≠ 0 →
       ugci_write s data count o = some (s1, rv) → 0 ≤ rv →
       s1.limit_sem + 1 = s.limit_sem ∧
       s1.submitted.length = s.submitted.length + 1) ∧
    (∀ (s : UsbUgci) (st : Int) (i : Nat), i < s.submitted.length →
       (ugci_write_bulk_callback s st i).limit_sem = s.limit_sem + 1 ∧
       (ugci_write_bulk_callback s st i).submitted.length + 1 =
         s.submitted.length) := by
  refine ⟨?_, ?_, ?_, ?_⟩
  · intro n s hr
    have h := (inv_reachable hr).sem_sum
    exact ⟨by omega, h⟩
  · intro s data count o s1 rv hw hrv
    rcases write_cases hw with ⟨_, rfl, rfl⟩ | ⟨_, _, _, _, rfl, _⟩ | ⟨_, _, _, rfl, _⟩ |
      ⟨_, hsem, hadm⟩
    · exact absurd hrv (by decide)
    · exact ⟨rfl, rfl⟩
    · exact ⟨rfl, rfl⟩
    · rcases write_admitted_cases { s with limit_sem := s.limit_sem - 1 } data
        (min count MAX_TRANSFER) o with ⟨_, heq⟩ | ⟨_, e, _, heq⟩ | ⟨_, _, heq⟩ <;>
        rw [hadm] at heq <;> simp only [Prod.mk.injEq] at heq
      · rw [heq.1]
        exact ⟨by simp; omega, by simp⟩
      · rw [heq.1]
        exact ⟨by simp; omega, by simp⟩
      · exfalso
        rw [heq.2] at hrv
        have := Int.natCast_nonneg (min count MAX_TRANSFER)
        omega
  · intro s data count o s1 rv hsub hc hw hrv
    have h := write_success_shape hsub hc hw hrv
    rw [h.2.1]
    refine ⟨by simp; omega, by simp⟩
  · intro s st i hi
    have h := List.length_eraseIdx_of_lt hi
    exact ⟨by simp, by simp [h]; omega⟩

theorem C4_bounded_writes_witness :
    ((ugci_probe 8).submitted.length ≤ WRITES_IN_FLIGHT ∧
      (ugci_probe 8).submitted.length + (ugci_probe 8).limit_sem = WRITES_IN_FLIGHT) ∧
    ({ ugci_probe 2 with errors := 0 }.limit_sem = { ugci_probe 2 with errors := -EPIPE }.limit_sem ∧
      { ugci_probe 2 with errors := 0 }.submitted = { ugci_probe 2 with errors := -EPIPE }.submitted) ∧
    ({ ugci_probe 2 with limit_sem := 7, submitted := [[1, 2]] }.limit_sem + 1 =
        (ugci_probe 2).limit_sem ∧
      { ugci_probe 2 with limit_sem := 7, submitted := [[1, 2]] }.submitted.length =
        (ugci_probe 2).submitted.length + 1) ∧
    ((ugci_write_bulk_callback { ugci_probe 2 with limit_sem := 7, submitted := [[1, 2]] }
        (-ESHUTDOWN) 0).limit_sem =
      { ugci_probe 2 with limit_sem := 7, submitted := [[1, 2]] }.limit_sem + 1) := by
  refine ⟨?_, ?_, ?_, ?_⟩
  · exact C4_bounded_writes.1 8 (ugci_probe 8) Relation.ReflTransGen.refl
  · exact C4_bounded_writes.2.1 { ugci_probe 2 with errors := -EPIPE } [9] 1
      ⟨false, false, true, true, true, 0⟩ { ugci_probe 2 with errors := 0 } (-EPIPE)
      (by decide) (by decide)
  · exact C4_bounded_writes.2.2.1 (ugci_probe 2) [1, 2] 2
      ⟨false, false, true, true, true, 0⟩
      { ugci_probe 2 with limit_sem := 7, submitted := [[1, 2]] } 2
      (by decide) (by decide) (by decide) (by decide)
  · exact (C4_bounded_writes.2.2.2 { ugci_probe 2 with limit_sem := 7, submitted := [[1, 2]] }
      (-ESHUTDOWN) 0 (by decide)).1

/-- C5: buffer-offset sanity and no re-delivery.  In every reachable state
`consumed ≤ filled ≤ capacity` (and the buffer really has that capacity); a
read that delivers data copies exactly the bytes starting at the current
`consumed` offset — never a byte below it — and advances `consumed` by the
chunk; the same holds on the partial-satisfaction path that restarts IO;
and an inbound completion never moves `consumed`, so between two inbound
submissions `consumed` only advances. -/
theorem C5_buffer_invariant :
    (∀ (n : Nat) (s : UsbUgci), Reachable n s →
       s.bulk_in_copied ≤ s.bulk_in_filled ∧ s.bulk_in_filled ≤ s.bulk_in_size ∧
       s.bulk_in_buffer.length = s.bulk_in_size) ∧
    (∀ (s : UsbUgci) (count : Nat) (nb : Bool) (fuel : Nat)
       (waits : List (Option (Int × List Nat))) (submits : List Int) (cok : Bool),
       s.has_bulk_in_urb = true → s.interface_present = true → count ≠ 0 →
       s.ongoing_read = false → ¬ s.errors < 0 →
       s.bulk_in_filled - s.bulk_in_copied ≠ 0 →
       count ≤ s.bulk_in_filled - s.bulk_in_copied →
       ugci_read s count nb false (fuel + 1) waits submits cok =
         some ({ s with bulk_in_copied := s.bulk_in_copied + count },
           (if cok then (count : Int) else -EFAULT),
           (if cok then (s.bulk_in_buffer.drop s.bulk_in_copied).take count else []))) ∧
    (∀ (s : UsbUgci) (count : Nat) (nb : Bool) (fuel : Nat)
       (waits : List (Option (Int × List Nat))) (srv : Int) (submits2 : List Int)
       (cok : Bool),
       s.has_bulk_in_urb = true → s.interface_present = true → count ≠ 0 →
       s.ongoing_read = false → ¬ s.errors < 0 →
       s.bulk_in_filled - s.bulk_in_copied ≠ 0 →
       s.bulk_in_filled - s.bulk_in_copied < count →
       ugci_read s count nb false (fuel + 1) waits (srv :: submits2) cok =
         some ((ugci_do_read
             { s with bulk_in_copied :=
                 s.bulk_in_copied + (s.bulk_in_filled - s.bulk_in_copied) }
             (count - (s.bulk_in_filled - s.bulk_in_copied)) srv).1,
           (if cok then ((s.bulk_in_filled - s.bulk_in_copied : Nat) : Int)
            else -EFAULT),
           (if cok then (s.bulk_in_buffer.drop s.bulk_in_copied).take
               (s.bulk_in_filled - s.bulk_in_copied) else []))) ∧
    (∀ (s : UsbUgci) (st : Int) (inc : List Nat),
       (ugci_read_bulk_callback s st inc).bulk_in_copied = s.bulk_in_copied) := by
  refine ⟨?_, ?_, ?_, ?_⟩
  · intro n s hr
    have h := inv_reachable hr
    exact ⟨h.copied_le, h.filled_le, h.buf_len⟩
  · intro s count nb fuel waits submits cok hurb hintf hcount hong herr hav hcle
    exact read_delivery count nb fuel waits submits cok hurb hintf hcount hong herr
      hav hcle
  · intro s count nb fuel waits srv submits2 cok hurb hintf hcount hong herr hav hlt
    exact read_delivery_resubmit count nb fuel waits srv submits2 cok hurb hintf
      hcount hong herr hav hlt
  · intro s st inc
    simp

theorem C5_buffer_invariant_witness :
    ((ugci_probe 4).bulk_in_copied ≤ (ugci_probe 4).bulk_in_filled ∧
      (ugci_probe 4).bulk_in_filled ≤ (ugci_probe 4).bulk_in_size ∧
      (ugci_probe 4).bulk_in_buffer.length = (ugci_probe 4).bulk_in_size) ∧
    ugci_read { ugci_probe 4 with bulk_in_filled := 3, bulk_in_buffer := [5, 6, 7, 0], bulk_in_copied := 1 } 2 false false 1 [] [] true
      = some ({ ugci_probe 4 with bulk_in_filled := 3, bulk_in_buffer := [5, 6, 7, 0], bulk_in_copied := 3 }, 2, [6, 7]) ∧
    ugci_read { ugci_probe 4 with bulk_in_filled := 2, bulk_in_buffer := [5, 6, 7, 0] }
        3 false false 1 [] [0] true
      = some ({ ugci_probe 4 with bulk_in_buffer := [5, 6, 7, 0], ongoing_read := true, inflight_in := 1, inflight_in_len := 1 }, 2, [5, 6]) := by
  refine ⟨?_, ?_, ?_⟩
  · exact C5_buffer_invariant.1 4 (ugci_probe 4) Relation.ReflTransGen.refl
  · have h := C5_buffer_invariant.2.1
      { ugci_probe 4 with bulk_in_filled := 3, bulk_in_buffer := [5, 6, 7, 0], bulk_in_copied := 1 } 2 false 0 [] [] true (by decide) (by decide) (by decide)
      (by decide) (by decide) (by decide) (by decide)
    revert h
    decide
  · have h := C5_buffer_invariant.2.2.1
      { ugci_probe 4 with bulk_in_filled := 2, bulk_in_buffer := [5, 6, 7, 0] }
      3 false 0 [] 0 [] true (by decide) (by decide) (by decide)
      (by decide) (by decide) (by decide) (by decide)
    revert h
    decide

/-- C6: the single-inbound-transfer protocol.  In every reachable state at
most one inbound transfer is outstanding and `ongoing_read` is true exactly
when one is; a read call that finds `ongoing_read` set does nothing but wait
(nonblocking: returns -EAGAIN with the state untouched; blocking with the
wait interrupted: returns -ERESTARTSYS with the state untouched); and a
failed inbound submission resets `ongoing_read` to false without leaving a
transfer outstanding. -/
theorem C6_single_inbound :
    (∀ (n : Nat) (s : UsbUgci), Reachable n s →
       s.inflight_in ≤ 1 ∧ (s.ongoing_read = true ↔ s.inflight_in = 1)) ∧
    (∀ (s : UsbUgci) (count : Nat) (fuel : Nat)
       (waits : List (Option (Int × List Nat))) (submits : List Int) (cok : Bool),
       s.has_bulk_in_urb = true → s.interface_present = true → count ≠ 0 →
       s.ongoing_read = true →
       ugci_read s count true false (fuel + 1) waits submits cok =
         some (s, -EAGAIN, [])) ∧
    (∀ (s : UsbUgci) (count : Nat) (fuel : Nat)
       (waits : List (Option (Int × List Nat))) (submits : List Int) (cok : Bool),
       s.has_bulk_in_urb = true → s.interface_present = true → count ≠ 0 →
       s.ongoing_read = true →
       ugci_read s count false false (fuel + 1) (Option.none :: waits) submits cok =
         some (s, -ERESTARTSYS, [])) ∧
    (∀ (s : UsbUgci) (count : Nat) (srv : Int), srv < 0 →
       ((ugci_do_read s count srv).1).ongoing_read = false ∧
       ((ugci_do_read s count srv).1).inflight_in = s.inflight_in) := by
  refine ⟨?_, ?_, ?_, ?_⟩
  · intro n s hr
    have h := inv_reachable hr
    exact ⟨h.in_le, h.ongoing_iff⟩
  · intro s count fuel waits submits cok hurb hintf hcount hong
    exact read_nonblock_busy count fuel waits submits cok hurb hintf hcount hong
  · intro s count fuel waits submits cok hurb hintf hcount hong
    exact read_wait_interrupted count fuel waits submits cok hurb hintf hcount hong
  · intro s count srv h
    exact ⟨(do_read_fail h).1, (do_read_fail h).2.1⟩

theorem C6_single_inbound_witness :
    ((ugci_probe 4).inflight_in ≤ 1 ∧
      ((ugci_probe 4).ongoing_read = true ↔ (ugci_probe 4).inflight_in = 1)) ∧
    ugci_read { ugci_probe 4 with ongoing_read := true, inflight_in := 1, inflight_in_len := 4 }
        3 true false 1 [] [] true
      = some ({ ugci_probe 4 with ongoing_read := true, inflight_in := 1, inflight_in_len := 4 },
          -EAGAIN, []) ∧
    ugci_read { ugci_probe 4 with ongoing_read := true, inflight_in := 1, inflight_in_len := 4 }
        3 false false 1 [Option.none] [] true
      = some ({ ugci_probe 4 with ongoing_read := true, inflight_in := 1, inflight_in_len := 4 },
          -ERESTARTSYS, []) ∧
    ((ugci_do_read (ugci_probe 4) 3 (-1)).1).ongoing_read = false := by
  refine ⟨?_, ?_, ?_, ?_⟩
  · exact C6_single_inbound.1 4 (ugci_probe 4) Relation.ReflTransGen.refl
  · exact C6_single_inbound.2.1
      { ugci_probe 4 with ongoing_read := true, inflight_in := 1, inflight_in_len := 4 }
      3 0 [] [] true (by decide) (by decide) (by decide) (by decide)
  · have h := C6_single_inbound.2.2.1
      { ugci_probe 4 with ongoing_read := true, inflight_in := 1, inflight_in_len := 4 }
      3 0 [] [] true (by decide) (by decide) (by decide) (by decide)
    simpa using h
  · exact (C6_single_inbound.2.2.2 (ugci_probe 4) 3 (-1) (by decide)).1

/-- C7: a successful write of length L > 0 returns
writesize = min(L, MAX_TRANSFER), and the submitted transfer carries
exactly the first writesize bytes of the caller's data (the payload is
appended to the outstanding set, still in flight when the call returns —
the call does not wait for completion); a write of length 0 returns 0
without touching the state. -/
theorem C7_write_payload :
    (∀ (s : UsbUgci) (data : List Nat) (count : Nat) (o : WriteOracle)
       (s1 : UsbUgci) (rv : Int),
       o.submit_rv ≤ 0 → count ≠ 0 →
       ugci_write s data count o = some (s1, rv) → 0 ≤ rv →
       rv = ((min count MAX_TRANSFER : Nat) : Int) ∧
       s1.submitted = s.submitted ++ [data.take (min count MAX_TRANSFER)]) ∧
    (∀ (s : UsbUgci) (data : List Nat) (o : WriteOracle),
       ugci_write s data 0 o = some (s, 0)) := by
  refine ⟨?_, ?_⟩
  · intro s data count o s1 rv hsub hc hw hrv
    have h := write_success_shape hsub hc hw hrv
    refine ⟨h.1, ?_⟩
    rw [h.2.1]
  · intro s data o
    unfold ugci_write
    rw [if_pos rfl]

theorem C7_write_payload_witness :
    ((2 : Int) = ((min 2 MAX_TRANSFER : Nat) : Int) ∧
      ({ ugci_probe 2 with limit_sem := 7, submitted := [[4, 5]] }).submitted =
        (ugci_probe 2).submitted ++ [[4, 5, 6].take (min 2 MAX_TRANSFER)]) ∧
    ugci_write (ugci_probe 2) [7] 0 ⟨false, false, true, true, true, 0⟩
      = some (ugci_probe 2, 0) := by
  refine ⟨?_, ?_⟩
  · have h := C7_write_payload.1 (ugci_probe 2) [4, 5, 6] 2
      ⟨false, false, true, true, true, 0⟩
      { ugci_probe 2 with limit_sem := 7, submitted := [[4, 5]] } 2
      (by decide) (by decide) (by decide) (by decide)
    exact h
  · exact C7_write_payload.2 (ugci_probe 2) [7] ⟨false, false, true, true, true, 0⟩

theorem flush_fst (t : UsbUgci) :
    (ugci_flush t).1 = { ugci_draw_down t with errors := 0 } := rfl

theorem flush_snd (t : UsbUgci) :
    (ugci_flush t).2 = (if (ugci_draw_down t).errors ≠ 0
      then (if (ugci_draw_down t).errors = -EPIPE then -EPIPE else -EIO_err)
      else 0) := rfl

/-- C8: `ugci_flush` first drains (after it, no outbound request is
outstanding and — since at most one inbound urb exists — no inbound request
either), then returns the recorded last error mapped (-EPIPE for the
reset/pipe code, -EIO for any other nonzero code) and clears it, so an
immediately following flush with no new error reports none. -/
theorem C8_flush_semantics (s : UsbUgci) :
    ((ugci_flush s).1).errors = 0 ∧
    ((ugci_flush s).1).submitted = [] ∧
    (s.inflight_in ≤ 1 → ((ugci_flush s).1).inflight_in = 0) ∧
    ((ugci_draw_down s).errors ≠ 0 →
      (ugci_flush s).2 =
        (if (ugci_draw_down s).errors = -EPIPE then -EPIPE else -EIO_err)) ∧
    ((ugci_draw_down s).errors = 0 → (ugci_flush s).2 = 0) ∧
    (s.inflight_in ≤ 1 → (ugci_flush ((ugci_flush s).1)).2 = 0) := by
  have hdf := draw_down_fields s
  refine ⟨rfl, ?_, ?_, ?_, ?_, ?_⟩
  · show (ugci_draw_down s).submitted = []
    exact hdf.1
  · intro hle
    show (ugci_draw_down s).inflight_in = 0
    exact hdf.2 hle
  · intro hne
    rw [flush_snd, if_pos hne]
  · intro h0
    rw [flush_snd, if_neg (by simp [h0])]
  · intro hle
    have h1 : ((ugci_flush s).1).submitted = [] := hdf.1
    have h2 : ((ugci_flush s).1).inflight_in = 0 := hdf.2 hle
    have h3 : ((ugci_flush s).1).errors = 0 := rfl
    rw [flush_snd, draw_down_drained h1 h2, if_neg (by simp [h3])]

/-- A device with one outbound write and the inbound transfer in flight,
used to witness the flush claim. -/
def flushDemo : UsbUgci := { ugci_probe 2 with submitted := [[1]], limit_sem := 7, inflight_in := 1, ongoing_read := true, inflight_in_len := 2 }

theorem C8_flush_semantics_witness :
    ((ugci_flush flushDemo).1).errors = 0 ∧
    ((ugci_flush flushDemo).1).submitted = [] ∧
    ((ugci_flush flushDemo).1).inflight_in = 0 ∧
    (ugci_flush flushDemo).2 = -EIO_err ∧
    (ugci_flush ((ugci_flush flushDemo).1)).2 = 0 := by
  have h := C8_flush_semantics flushDemo
  refine ⟨h.1, h.2.1, h.2.2.1 (by decide), ?_, h.2.2.2.2.2 (by decide)⟩
  have h4 := h.2.2.2.1 (by decide)
  rw [h4]
  decide

/-- C9: a read call with `count = 0`, or on a handle with no inbound urb,
returns 0 and returns the state exactly unchanged (no field is touched). -/
theorem C9_read_zero (s : UsbUgci) (count : Nat) (nb mi : Bool) (fuel : Nat)
    (waits : List (Option (Int × List Nat))) (submits : List Int) (cok : Bool)
    (h : count = 0 ∨ s.has_bulk_in_urb = false) :
    ugci_read s count nb mi fuel waits submits cok = some (s, 0, []) :=
  read_trivial (h.elim Or.inr Or.inl)

theorem C9_read_zero_witness :
    ((0 : Nat) = 0 ∨ (ugci_probe 4).has_bulk_in_urb = false) ∧
    ugci_read (ugci_probe 4) 0 false false 5 [] [] true =
      some (ugci_probe 4, 0, []) :=
  ⟨Or.inl rfl,
   C9_read_zero (ugci_probe 4) 0 false false 5 [] [] true (Or.inl rfl)⟩

/-- C10: when the copy to the caller's buffer faults during a read with data
available, the call returns -EFAULT and no data, yet `bulk_in_copied`
(consumed) is still advanced by the full chunk; consequently the very next
read delivers bytes starting at the advanced offset only — the bytes of the
faulted chunk are dropped and never re-delivered. -/
theorem C10_fault_advances_consumed :
    (∀ (s : UsbUgci) (count : Nat) (nb : Bool) (fuel : Nat)
       (waits : List (Option (Int × List Nat))) (submits : List Int),
       s.has_bulk_in_urb = true → s.interface_present = true → count ≠ 0 →
       s.ongoing_read = false → ¬ s.errors < 0 →
       s.bulk_in_filled - s.bulk_in_copied ≠ 0 →
       count ≤ s.bulk_in_filled - s.bulk_in_copied →
       ugci_read s count nb false (fuel + 1) waits submits false =
         some ({ s with bulk_in_copied := s.bulk_in_copied + count }, -EFAULT, [])) ∧
    (∀ (s : UsbUgci) (count count2 : Nat) (nb2 : Bool) (fuel2 : Nat)
       (waits2 : List (Option (Int × List Nat))) (submits2 : List Int),
       s.has_bulk_in_urb = true → s.interface_present = true →
       s.ongoing_read = false → ¬ s.errors < 0 → count2 ≠ 0 →
       s.bulk_in_filled - (s.bulk_in_copied + count) ≠ 0 →
       count2 ≤ s.bulk_in_filled - (s.bulk_in_copied + count) →
       ugci_read { s with bulk_in_copied := s.bulk_in_copied + count } count2 nb2 false
           (fuel2 + 1) waits2 submits2 true =
         some ({ s with bulk_in_copied := s.bulk_in_copied + count + count2 },
           (count2 : Int),
           (s.bulk_in_buffer.drop (s.bulk_in_copied + count)).take count2)) := by
  refine ⟨?_, ?_⟩
  · intro s count nb fuel waits submits hurb hintf hcount hong herr hav hcle
    have h := read_delivery count nb fuel waits submits false hurb hintf hcount hong
      herr hav hcle
    simpa using h
  · intro s count count2 nb2 fuel2 waits2 submits2 hurb hintf hong herr hc2 hav2 hcle2
    have h := @read_delivery { s with bulk_in_copied := s.bulk_in_copied + count }
      count2 nb2 fuel2 waits2 submits2 true hurb hintf hc2 hong herr hav2 hcle2
    simpa [Nat.add_assoc] using h

theorem C10_fault_advances_consumed_witness :
    ugci_read { ugci_probe 4 with bulk_in_filled := 4, bulk_in_buffer := [10, 11, 12, 13] }
        2 false false 1 [] [] false
      = some ({ ugci_probe 4 with bulk_in_filled := 4, bulk_in_buffer := [10, 11, 12, 13], bulk_in_copied := 2 },
          -EFAULT, []) ∧
    ugci_read { ugci_probe 4 with bulk_in_filled := 4, bulk_in_buffer := [10, 11, 12, 13], bulk_in_copied := 2 }
        2 false false 1 [] [] true
      = some ({ ugci_probe 4 with bulk_in_filled := 4, bulk_in_buffer := [10, 11, 12, 13], bulk_in_copied := 4 },
          2, [12, 13]) := by
  refine ⟨?_, ?_⟩
  · have h := C10_fault_advances_consumed.1
      { ugci_probe 4 with bulk_in_filled := 4, bulk_in_buffer := [10, 11, 12, 13] }
      2 false 0 [] [] (by decide) (by decide) (by decide) (by decide) (by decide)
      (by decide) (by decide)
    revert h
    decide
  · have h := C10_fault_advances_consumed.2
      { ugci_probe 4 with bulk_in_filled := 4, bulk_in_buffer := [10, 11, 12, 13] }
      2 2 false 0 [] [] (by decide) (by decide) (by decide) (by decide) (by decide)
      (by decide) (by decide)
    revert h
    decide

end Ugci
